import Mathlib

/-!
Verification of the strategic decision engine of the `football_easy`
repository against its natural-language specification.

Numeric C++ `double`/`float` arithmetic is modelled over `ℝ` (exact real
arithmetic); cycle counters and robot ids are modelled as `ℤ`; purely
rational-valued score arithmetic is modelled over `ℚ` so that it stays
executable.  `rint`-based angle normalisation is modelled with Mathlib's
`round`; the two differ only on exact half-integer multiples of `2π`,
where both return an angle of absolute value `π`, so every property
below (all of which only inspect the absolute value against a tolerance)
is unaffected.
-/

/-- Modelled from the framework header `vector.h` (not under `src/`, but
used pervasively by it): a 2-D point/vector with `float` coordinates,
supporting `+`, `-`, scaling, `length()` and `angle()`. -/
@[ext]
structure point2f where
  x : ℝ
  y : ℝ

noncomputable instance : Add point2f :=
  ⟨fun p q => ⟨p.x + q.x, p.y + q.y⟩⟩

noncomputable instance : Sub point2f :=
  ⟨fun p q => ⟨p.x - q.x, p.y - q.y⟩⟩

/-- `point2f * scalar`, as in the C++ `operator*(float)`. -/
noncomputable instance : HMul point2f ℝ point2f :=
  ⟨fun p c => ⟨p.x * c, p.y * c⟩⟩

/-- `point2f::length()`: the Euclidean norm `sqrt(x*x + y*y)`. -/
noncomputable def point2f.length (p : point2f) : ℝ :=
  Real.sqrt (p.x ^ 2 + p.y ^ 2)

/-- `point2f::angle()`: `atan2(y, x)`, modelled as the complex argument
of `x + y·i`, which agrees with `atan2` on every input. -/
noncomputable def point2f.angle (p : point2f) : ℝ :=
  Complex.arg ⟨p.x, p.y⟩

/-- `anglemod` from `worldmodel.h`: `a - 2π * rint(a / 2π)`, normalising
an angle into `[-π, π]`. -/
noncomputable def anglemod (a : ℝ) : ℝ :=
  a - 2 * Real.pi * (round (a / (2 * Real.pi)) : ℤ)

/-- The per-cycle state of `BallTools` (file `ball_tools.h`) that
`predictPosition` / `predictTimeToPosition` read: `updateState()` sets
`position` and `velocity` from the world model and derives
`speed = velocity.length()` and `direction = velocity.angle()`. -/
structure BallState where
  position : point2f
  velocity : point2f

noncomputable def BallState.speed (b : BallState) : ℝ :=
  b.velocity.length

noncomputable def BallState.direction (b : BallState) : ℝ :=
  b.velocity.angle

/-- The deceleration (friction) coefficient hard-coded as `0.03` in
`BallTools::predictPosition` and `BallTools::predictTimeToPosition`. -/
noncomputable def frictionCoef : ℝ := 3 / 100

/-- The unit vector `point2f(cos(direction), sin(direction))` built by
`BallTools::predictPosition`. -/
noncomputable def BallState.heading (b : BallState) : point2f :=
  ⟨Real.cos b.direction, Real.sin b.direction⟩

/-- `BallTools::predictPosition(time)` (ball_tools.h lines 145-173):
closed-form constant-deceleration model.  Near-stationary guard at
`speed < 1.0`; for `time >= stopping_time` the displacement is clamped
to `0.5 * speed * stopping_time`. -/
noncomputable def predictPosition (b : BallState) (time : ℝ) : point2f :=
  if b.speed < 1 then b.position
  else
    let stopping_time := b.speed / frictionCoef
    if stopping_time ≤ time then
      b.position + b.heading * (0.5 * b.speed * stopping_time)
    else
      b.position + b.heading * (b.speed * time - 0.5 * frictionCoef * time ^ 2)

/-- The scalar displacement computed by `predictPosition`, with the
speed `s` and the friction coefficient `k` abstracted as the spec's
testable property quantifies over them. -/
noncomputable def predictDisplacement (s k t : ℝ) : ℝ :=
  if s < 1 then 0
  else if s / k ≤ t then 0.5 * s * (s / k)
  else s * t - 0.5 * k * t ^ 2

/-- `BallTools::predictTimeToPosition(target)` (ball_tools.h lines
200-246): inverts the deceleration model by the quadratic formula,
`-1` being the unreachable sentinel. -/
noncomputable def predictTimeToPosition (b : BallState) (target : point2f) : ℝ :=
  if b.speed < 1 then -1
  else
    let distance := (target - b.position).length
    let max_distance := 0.5 * b.speed * b.speed / frictionCoef
    if max_distance < distance then -1
    else
      let a := 0.5 * frictionCoef
      let bb := -b.speed
      let c := distance
      let delta := bb * bb - 4 * a * c
      if delta < 0 then -1
      else
        let t1 := (-bb + Real.sqrt delta) / (2 * a)
        let t2 := (-bb - Real.sqrt delta) / (2 * a)
        if 0 < t1 ∧ 0 < t2 then min t1 t2
        else if 0 < t1 then t1
        else if 0 < t2 then t2
        else -1

/-- `BallTools::isMoving(speed_threshold)` (ball_tools.h line 291):
`speed > speed_threshold`; the default threshold at call sites is 10. -/
def BallState.isMoving (b : BallState) (speed_threshold : ℝ) : Prop :=
  speed_threshold < b.speed

/-- `BallTools::directionTo(target)` (ball_tools.h line 374). -/
noncomputable def BallState.directionTo (b : BallState) (target : point2f) : ℝ :=
  (target - b.position).angle

/-- `BallTools::isMovingTowards(direction, tolerance)` (ball_tools.h
lines 414-419).  In the C++ body the parameter `direction` shadows the
member `this->direction`, so the executed code computes
`fabs(anglemod(direction - direction))`, i.e. subtracts the parameter
from itself; the embedding reproduces exactly that. -/
def BallState.isMovingTowards (b : BallState) (direction tolerance : ℝ) : Prop :=
  b.isMoving 10 ∧ |anglemod (direction - direction)| < tolerance

/-- `BallTools::isMovingTowardsTarget(target, tolerance)` (ball_tools.h
lines 427-432). -/
noncomputable def BallState.isMovingTowardsTarget
    (b : BallState) (target : point2f) (tolerance : ℝ) : Prop :=
  b.isMoving 10 ∧ b.isMovingTowards (b.directionTo target) tolerance

namespace Ball

/-- `Ball::isStationary(threshold)` from foot/1/ball.h (line 63). -/
def isStationary (b : BallState) (threshold : ℝ) : Prop :=
  b.speed < threshold

/-- `Ball::getDirection()` from foot/1/ball.h (lines 55-60). -/
noncomputable def getDirection (b : BallState) : ℝ :=
  if 0.1 < b.speed then b.velocity.angle else 0

/-- `Ball::isMovingToward(target, angle_tolerance)` from foot/1/ball.h
(lines 111-118): the same predicate implemented without the shadowing
slip, comparing the ball heading with the bearing to the target. -/
noncomputable def isMovingToward
    (b : BallState) (target : point2f) (angle_tolerance : ℝ) : Prop :=
  ¬ isStationary b 5 ∧
    |anglemod (getDirection b - (target - b.position).angle)| < angle_tolerance

end Ball

/-- The shared possession test of `Players::updateState` (players.h
lines 445-448) and `OppPlayers::updateState` (opp_players.h lines
192-195): the entity has the ball iff its distance to the ball is below
the control radius (the repository constants
`OPP_BALL_CONTROL_THRESHOLD` / `PLAYER_BALL_CONTROL_DIST` are both 50
mm) and the absolute normalised difference between the bearing to the
ball and the entity orientation is below `π/4`. -/
def hasBallCheck (playerPos : point2f) (playerDir : ℝ)
    (ballPos : point2f) (radius : ℝ) : Prop :=
  (ballPos - playerPos).length < radius ∧
    |anglemod ((ballPos - playerPos).angle - playerDir)| < Real.pi / 4

/-- `TacticType` from tactics.h (lines 29-34). -/
inductive TacticType where
  | ATTACK
  | DEFENSE
  | TRANSITION
  | SPECIAL_SITUATION
deriving DecidableEq

/-- A registered tactic as the scheduler sees it in one cycle: its name,
its category (`getType()`), and the score its `evaluate()` returns this
cycle.  Registration order is the position in the catalog list. -/
structure TacticRec where
  name : String
  category : TacticType
  score : Rat
deriving DecidableEq

/-- The loop body of `TacticFactory::selectBestTactic` (tactics.h lines
169-189), carrying the running `best_score` and `best_tactic`. -/
def selectAux (ty : TacticType) :
    List TacticRec -> Rat -> Option TacticRec -> Option TacticRec
  | [], _, best => best
  | t :: rest, best_score, best =>
    if t.category ≠ ty then selectAux ty rest best_score best
    else if best_score < t.score then selectAux ty rest t.score (some t)
    else selectAux ty rest best_score best

/-- `TacticFactory::selectBestTactic(type)`: `best_score` starts at
`-1.0`, `best_tactic` at null; a candidate replaces the best only when
its score is strictly greater. -/
def selectBestTactic (tactics : List TacticRec) (ty : TacticType) :
    Option TacticRec :=
  selectAux ty tactics (-1) none

/-- Outcome of the attack/defense step of robot2.cpp `player_plan`:
either a selected tactic is executed or the default heuristic runs. -/
inductive DecisionBranch where
  | tacticExec : TacticRec -> DecisionBranch
  | defaultBehavior
deriving DecidableEq

/-- robot2.cpp lines 201-224: pick DEFENSE when the ball is in our
half, ATTACK otherwise; execute the selected tactic if the pointer is
non-null, otherwise fall back to the default behavior. -/
def robot2NormalPlay (tactics : List TacticRec) (ballInOurHalf : Bool) :
    DecisionBranch :=
  let ty := if ballInOurHalf then TacticType.DEFENSE else TacticType.ATTACK
  match selectBestTactic tactics ty with
  | some t => DecisionBranch.tacticExec t
  | none => DecisionBranch.defaultBehavior

/-- The catalog registered by robot1.cpp `initialize` (lines 76-82):
three attack tactics and one transition tactic, with the scores their
`evaluate()` returns this cycle abstracted. -/
def robot1Catalog (s1 s2 s3 s4 : Rat) : List TacticRec :=
  [⟨"DirectAttack", TacticType.ATTACK, s1⟩,
   ⟨"PassAndShoot", TacticType.ATTACK, s2⟩,
   ⟨"WingAttack", TacticType.ATTACK, s3⟩,
   ⟨"CounterAttack", TacticType.TRANSITION, s4⟩]

/-- The situational conditions read by `DirectAttackTactic::evaluate`
(attack_tactics.h lines 22-68): whether the ball is in the opponent
half, the distance of the closest own player to the ball (`none` when
`getClosestPlayerToBall() < 0`), the ball's distance to the opponent
goal, and the opponent goalie's defensive score. -/
structure DirectAttackSituation where
  ballInOpponentHalf : Bool
  closestDistToBall : Option Rat
  distToOpponentGoal : Rat
  goalieDefenseScore : Rat

/-- The raw weighted sum accumulated in `score` by
`DirectAttackTactic::evaluate`. -/
def directAttackRaw (i : DirectAttackSituation) : Rat :=
  (if i.ballInOpponentHalf then 3 else 0) +
  (match i.closestDistToBall with
   | some d => if d < 50 then 2 else if d < 100 then 1 else 0
   | none => 0) +
  (if i.distToOpponentGoal < 200 then 3
   else if i.distToOpponentGoal < 400 then 3 / 2 else 0) +
  (if i.goalieDefenseScore < 5 then 2 else 0)

/-- The score `DirectAttackTactic::evaluate` returns: `score / 10.0`. -/
def directAttackEvaluate (i : DirectAttackSituation) : Rat :=
  directAttackRaw i / 10

/-- The maximum raw score `DirectAttackTactic::evaluate` can attain. -/
def directAttackMaxRaw : Rat := 10

/-- The situational conditions read by `PassAndShootTactic::evaluate`
(attack_tactics.h lines 132-201): ball in opponent half, number of own
players in the opponent half, whether some teammate has a clear passing
lane from the closest-to-ball player, and the number of threatening
opponents. -/
structure PassAndShootSituation where
  ballInOpponentHalf : Bool
  playersInOpponentHalf : Nat
  clearPassingLane : Bool
  threatCount : Nat

/-- The raw weighted sum accumulated in `score` by
`PassAndShootTactic::evaluate`. -/
def passAndShootRaw (i : PassAndShootSituation) : Rat :=
  (if i.ballInOpponentHalf then 2 else 0) +
  (if 2 ≤ i.playersInOpponentHalf then 3
   else if i.playersInOpponentHalf = 1 then 1 else 0) +
  (if i.clearPassingLane then 5 / 2 else 0) +
  (if i.threatCount < 2 then 3 / 2 else 0)

/-- The score `PassAndShootTactic::evaluate` returns: `score / 10.0`. -/
def passAndShootEvaluate (i : PassAndShootSituation) : Rat :=
  passAndShootRaw i / 10

/-- The maximum raw score `PassAndShootTactic::evaluate` can attain:
`2 + 3 + 2.5 + 1.5 = 9` (all four conditions favourable). -/
def passAndShootMaxRaw : Rat := 9

/-- A fully favourable situation for `PassAndShootTactic`. -/
def bestPassAndShootSituation : PassAndShootSituation :=
  ⟨true, 2, true, 0⟩

/-- `MessageType` from communication.h (lines 21-30). -/
inductive MessageType where
  | NONE
  | BALL_POSSESSION
  | PASS_INTENTION
  | PASS_EXECUTION
  | POSITION_EXCHANGE
  | ATTACK_STRATEGY
  | DEFENSE_STRATEGY
  | EMERGENCY
deriving DecidableEq

/-- A mailbox slot / message (communication.h `Message` and
`SharedMemoryMessage`). -/
structure Msg where
  sender_id : Int
  receiver_id : Int
  type : MessageType
  timestamp : Int
  position : Rat × Rat
  orientation : Rat
  data : String
deriving DecidableEq

/-- The default-constructed `Message` (communication.h lines 44-45),
returned by `receiveMessage` as the NONE sentinel. -/
def defaultMsg : Msg :=
  ⟨-1, -1, MessageType.NONE, 0, (0, 0), 0, ""⟩

/-- A zero-initialised shared-memory slot (after the `memset` in
`Communication::initialize`). -/
def zeroSlot : Msg :=
  ⟨0, 0, MessageType.NONE, 0, (0, 0), 0, ""⟩

/-- The freshly initialised slot table: `MAX_MESSAGES = 20` zeroed
slots. -/
def initialTable : List Msg := List.replicate 20 zeroSlot

/-- The slot scan of `Communication::sendMessage`: the first slot whose
type is NONE or whose timestamp is more than 10 cycles old is
overwritten with the message; `none` models the buffer-full failure. -/
def sendAux (m : Msg) (cycle : Int) : List Msg -> Option (List Msg)
  | [] => none
  | s :: rest =>
    if s.type = MessageType.NONE ∨ s.timestamp < cycle - 10 then
      some (m :: rest)
    else
      (sendAux m cycle rest).map (s :: ·)

/-- `Communication::sendMessage(receiver_id, type, position,
orientation, data)` (communication.h lines 141-182), with the slot
table and the sender's id and current cycle explicit; the payload is
truncated to `MAX_DATA_LENGTH - 1 = 255` characters. -/
def sendMessage (table : List Msg) (robot_id cycle receiver_id : Int)
    (ty : MessageType) (pos : Rat × Rat) (orient : Rat) (data : String) :
    Option (List Msg) :=
  sendAux ⟨robot_id, receiver_id, ty, cycle, pos, orient, data.take 255⟩
    cycle table

/-- A slot is addressed to `robot_id` and passes the type filter
(`NONE` filter accepts any type), as tested inside
`Communication::receiveMessage`. -/
def msgMatches (robot_id : Int) (filter : MessageType) (s : Msg) : Prop :=
  s.receiver_id = robot_id ∧ (filter = MessageType.NONE ∨ s.type = filter)

instance (robot_id : Int) (filter : MessageType) (s : Msg) :
    Decidable (msgMatches robot_id filter s) := by
  unfold msgMatches
  infer_instance

/-- The scan loop of `Communication::receiveMessage`, carrying
`latest_timestamp` and the `result` copy. -/
def receiveAux (robot_id : Int) (filter : MessageType) :
    List Msg -> Int -> Msg -> Msg
  | [], _, result => result
  | s :: rest, latest, result =>
    if s.receiver_id = robot_id ∧
        (filter = MessageType.NONE ∨ s.type = filter) ∧
        latest < s.timestamp then
      receiveAux robot_id filter rest s.timestamp s
    else
      receiveAux robot_id filter rest latest result

/-- `Communication::receiveMessage(type)` (communication.h lines
189-230): scans all slots for the freshest one addressed to the caller
matching the filter, starting from `latest_timestamp = -1` and the
default message, and returns a copy (the default NONE message when no
slot qualifies). -/
def receiveMessage (table : List Msg) (robot_id : Int)
    (filter : MessageType) : Msg :=
  receiveAux robot_id filter table (-1) defaultMsg

/-- One `sendMessage` call with all its arguments. -/
structure SendOp where
  sender : Int
  cycle : Int
  receiver : Int
  ty : MessageType
  pos : Rat × Rat
  orient : Rat
  data : String

/-- Apply one send to the table; a failed (buffer-full) send leaves the
table unchanged. -/
def applySend (table : List Msg) (op : SendOp) : List Msg :=
  (sendMessage table op.sender op.cycle op.receiver op.ty op.pos
    op.orient op.data).getD table

/-- Apply a sequence of sends in order. -/
def applySends (table : List Msg) (ops : List SendOp) : List Msg :=
  ops.foldl applySend table

/-- The message of the spec's mailbox example: sender 1 sends
PASS_INTENTION with position `(50,50)` to receiver 3 at cycle 5. -/
def examplePassMsg : Msg :=
  ⟨1, 3, MessageType.PASS_INTENTION, 5, (50, 50), 0, ""⟩

/-- The table after that send lands in the first (empty) slot of the
initial table. -/
def exampleTable : List Msg :=
  applySend initialTable ⟨1, 5, 3, MessageType.PASS_INTENTION, (50, 50), 0, ""⟩

/-- A second, fresher message to the same receiver 3 of the same type:
sender 2, cycle 6, position `(60,60)`. -/
def examplePassMsg2 : Msg :=
  ⟨2, 3, MessageType.PASS_INTENTION, 6, (60, 60), 0, ""⟩

/-- The table after both sends: the first message sits in slot 0, the
second in slot 1; slot 0 is not overwritten and both are within the
10-cycle TTL at cycle 6. -/
def shadowTable : List Msg :=
  applySend exampleTable ⟨2, 6, 3, MessageType.PASS_INTENTION, (60, 60), 0, ""⟩

/-- `PlayerTask` fields set by the engine (PlayerTask.h is framework
code; the fields are modelled from the spec's Command:
target pose, orientation, kick request, kick power, chip flag, pass
flag, dribble flag). -/
structure PlayerTask where
  target_pos : Rat × Rat
  orientate : Rat
  needKick : Bool
  isPass : Bool
  isChipKick : Bool
  kickPower : Rat
  needDribble : Bool
deriving DecidableEq

/-- The default-constructed `PlayerTask` built at the top of
`player_plan`. -/
def defaultPlayerTask : PlayerTask :=
  ⟨(0, 0), 0, false, false, false, 0, false⟩

/-- A fault raised while evaluating or executing a tactic inside the
decision cycle; the repository raises only `std::exception`-derived
faults (carrying a `what()` message), and both robot1.cpp and
robot2.cpp catch exactly those. -/
inductive Fault where
  | stdException : String -> Fault
deriving DecidableEq

/-- The exception boundary of `player_plan` (robot1.cpp lines 245-397,
robot2.cpp lines 147-309): the whole per-cycle decision body runs
inside `try`; its outcome is either a computed task or a fault.  The
`catch` handler overwrites the default-constructed task's target pose
and orientation with the agent's current ones and the function returns
it, so a fault never propagates to the caller. -/
def player_plan (body : Except Fault PlayerTask) (curPos : Rat × Rat)
    (curDir : Rat) : PlayerTask :=
  match body with
  | Except.ok t => t
  | Except.error _ => ⟨curPos, curDir, false, false, false, 0, false⟩

/-- Ball state used in the spec's worked example: ball at `(0,0)` with
velocity `(100, 0)` mm/s. -/
noncomputable def exampleBall : BallState :=
  ⟨⟨0, 0⟩, ⟨100, 0⟩⟩

/-- A slowly moving ball (speed `0.5`, below the stationary threshold
`1.0`) at the origin. -/
noncomputable def slowBall : BallState :=
  ⟨⟨0, 0⟩, ⟨1 / 2, 0⟩⟩

theorem exampleBall_speed : exampleBall.speed = 100 := by
  have h : ((100 : ℝ) ^ 2 + 0 ^ 2) = 100 ^ 2 := by norm_num
  simp only [BallState.speed, point2f.length, exampleBall, h]
  rw [Real.sqrt_sq (by norm_num)]

theorem exampleBall_direction : exampleBall.direction = 0 := by
  have h : (⟨100, 0⟩ : Complex) = ((100 : ℝ) : ℂ) := by
    apply Complex.ext <;> simp
  simp only [BallState.direction, point2f.angle, exampleBall, h]
  exact Complex.arg_ofReal_of_nonneg (by norm_num)

/-- **C1**: for every ball state with speed at or above the stationary
threshold (1.0) and every time `t ≥ 0`, `predictPosition t` returns the
current position displaced along the current heading by
`speed*t - 0.5*k*t²` when `t < stopTime = speed/k`, and by the resting
displacement `0.5*speed*stopTime` when `t ≥ stopTime`; the magnitude of
the displacement equals those quantities; for near-zero speed the
current position is returned unchanged.  In particular, a ball at
`(0,0)` with velocity `(100,0)` and `k = 0.03` has
`predict(1.0) = (99.985, 0)`. -/
theorem claim_C1 :
    (∀ (b : BallState) (t : ℝ), b.speed < 1 → predictPosition b t = b.position) ∧
    (∀ (b : BallState) (t : ℝ), 1 ≤ b.speed → 0 ≤ t →
      (t < b.speed / frictionCoef →
        predictPosition b t =
          b.position + b.heading * (b.speed * t - 0.5 * frictionCoef * t ^ 2) ∧
        (predictPosition b t - b.position).length =
          b.speed * t - 0.5 * frictionCoef * t ^ 2) ∧
      (b.speed / frictionCoef ≤ t →
        predictPosition b t =
          b.position + b.heading * (0.5 * b.speed * (b.speed / frictionCoef)) ∧
        (predictPosition b t - b.position).length =
          0.5 * b.speed * (b.speed / frictionCoef))) ∧
    predictPosition exampleBall 1 = ⟨99.985, 0⟩ := by
  have hk : (0 : ℝ) < frictionCoef := by norm_num [frictionCoef]
  have hlen : ∀ (b : BallState) (c : ℝ), 0 ≤ c →
      ((b.position + b.heading * c) - b.position).length = c := by
    intro b c hc
    have h1 : Real.cos b.direction ^ 2 + Real.sin b.direction ^ 2 = 1 := by
      rw [add_comm]; exact Real.sin_sq_add_cos_sq b.direction
    show Real.sqrt _ = c
    have h2 : (b.position.x + b.heading.x * c - b.position.x) ^ 2 +
        (b.position.y + b.heading.y * c - b.position.y) ^ 2 = c ^ 2 := by
      simp only [BallState.heading]
      ring_nf
      nlinarith [h1]
    rw [show ((b.position + b.heading * c) - b.position) =
        ⟨b.position.x + b.heading.x * c - b.position.x,
         b.position.y + b.heading.y * c - b.position.y⟩ from rfl]
    simp only [point2f.length]
    rw [h2, Real.sqrt_sq hc]
  refine ⟨fun b t hb => by simp [predictPosition, hb], fun b t hb ht => ⟨?_, ?_⟩, ?_⟩
  · intro hlt
    have hnot : ¬ b.speed < 1 := not_lt.mpr hb
    have hnot2 : ¬ b.speed / frictionCoef ≤ t := not_le.mpr hlt
    constructor
    · simp [predictPosition, hnot, hnot2]
    · rw [show predictPosition b t =
          b.position + b.heading * (b.speed * t - 0.5 * frictionCoef * t ^ 2) by
          simp [predictPosition, hnot, hnot2]]
      apply hlen
      have hkt : t * frictionCoef < b.speed := (lt_div_iff₀ hk).mp hlt
      nlinarith
  · intro hge
    have hnot : ¬ b.speed < 1 := not_lt.mpr hb
    constructor
    · simp [predictPosition, hnot, hge]
    · rw [show predictPosition b t =
          b.position + b.heading * (0.5 * b.speed * (b.speed / frictionCoef)) by
          simp [predictPosition, hnot, hge]]
      apply hlen
      have : 0 ≤ b.speed / frictionCoef := div_nonneg (by linarith) (le_of_lt hk)
      nlinarith
  · have hb : exampleBall.speed = 100 := exampleBall_speed
    have hd : exampleBall.direction = 0 := exampleBall_direction
    have hnot : ¬ exampleBall.speed < 1 := by rw [hb]; norm_num
    have hnot2 : ¬ exampleBall.speed / frictionCoef ≤ 1 := by
      rw [hb]; norm_num [frictionCoef]
    simp only [predictPosition, hnot, if_false, hnot2, BallState.heading, hd]
    rw [hb]
    show (⟨(0 : ℝ), (0 : ℝ)⟩ : point2f) +
        (⟨Real.cos 0, Real.sin 0⟩ : point2f) * _ = _
    rw [Real.cos_zero, Real.sin_zero]
    show (⟨0 + 1 * (100 * 1 - 0.5 * frictionCoef * 1 ^ 2),
          0 + 0 * (100 * 1 - 0.5 * frictionCoef * 1 ^ 2)⟩ : point2f) = _
    have : (0 : ℝ) + 1 * (100 * 1 - 0.5 * frictionCoef * 1 ^ 2) = 99.985 := by
      norm_num [frictionCoef]
    rw [this]
    norm_num

/-- Witness for C1: instantiated at the example ball and `t = 1`, which
satisfies the hypotheses `1 ≤ speed` and `0 ≤ t`. -/
theorem claim_C1_witness :
    (1 : ℝ) ≤ exampleBall.speed ∧ (0 : ℝ) ≤ 1 ∧
    ((1 : ℝ) < exampleBall.speed / frictionCoef →
      predictPosition exampleBall 1 =
        exampleBall.position + exampleBall.heading *
          (exampleBall.speed * 1 - 0.5 * frictionCoef * 1 ^ 2) ∧
      (predictPosition exampleBall 1 - exampleBall.position).length =
        exampleBall.speed * 1 - 0.5 * frictionCoef * 1 ^ 2) := by
  have h1 : (1 : ℝ) ≤ exampleBall.speed := by rw [exampleBall_speed]; norm_num
  exact ⟨h1, by norm_num, fun h => (claim_C1.2.1 exampleBall 1 h1 (by norm_num)).1 h⟩

theorem point2f.add_x (p q : point2f) : (p + q).x = p.x + q.x := rfl

theorem point2f.add_y (p q : point2f) : (p + q).y = p.y + q.y := rfl

theorem point2f.hmul_x (p : point2f) (c : ℝ) : (p * c).x = p.x * c := rfl

theorem point2f.hmul_y (p : point2f) (c : ℝ) : (p * c).y = p.y * c := rfl

/-- Unfolding `predictDisplacement` through `min`: for a moving ball the
displacement is the free-rolling formula evaluated at `min t stopTime`. -/
theorem predictDisplacement_eq_min (s k t : ℝ) (hk : 0 < k) (hs : ¬ s < 1) :
    predictDisplacement s k t =
      s * min t (s / k) - 0.5 * k * (min t (s / k)) ^ 2 := by
  by_cases hts : s / k ≤ t
  · rw [min_eq_right hts]
    simp only [predictDisplacement, hs, if_false, hts, if_true]
    field_simp
    ring
  · rw [min_eq_left (le_of_not_le hts)]
    simp only [predictDisplacement, hs, if_false, hts]

/-- **C7**: the displacement computed by `predictPosition` (applied to
the position along the heading) is, for all `s ≥ 0` and `k > 0`,
continuous at `t = stopTime = s/k`, non-decreasing on `[0, stopTime]`,
and constant for `t ≥ stopTime`. -/
theorem claim_C7 :
    (∀ (b : BallState) (t : ℝ),
      predictPosition b t =
        b.position + b.heading * predictDisplacement b.speed frictionCoef t) ∧
    (∀ s k : ℝ, 0 ≤ s → 0 < k →
      ContinuousAt (predictDisplacement s k) (s / k) ∧
      MonotoneOn (predictDisplacement s k) (Set.Icc 0 (s / k)) ∧
      (∀ t, s / k ≤ t →
        predictDisplacement s k t = predictDisplacement s k (s / k))) := by
  constructor
  · intro b t
    by_cases hb : b.speed < 1
    · simp only [predictPosition, hb, if_true, predictDisplacement]
      ext <;> simp [point2f.add_x, point2f.add_y, point2f.hmul_x, point2f.hmul_y]
    · by_cases hts : b.speed / frictionCoef ≤ t
      · simp only [predictPosition, hb, if_false, hts, if_true, predictDisplacement]
      · simp only [predictPosition, hb, if_false, hts, if_true, predictDisplacement]
  · intro s k hs hk
    refine ⟨?_, ?_, ?_⟩
    · by_cases hs1 : s < 1
      · have h0 : predictDisplacement s k = fun _ => (0 : ℝ) := by
          funext t; simp [predictDisplacement, hs1]
        rw [h0]; exact continuousAt_const
      · have hm : predictDisplacement s k = fun t =>
            s * min t (s / k) - 0.5 * k * (min t (s / k)) ^ 2 := by
          funext t; exact predictDisplacement_eq_min s k t hk hs1
        rw [hm]
        have hmin : Continuous fun t : ℝ => min t (s / k) :=
          continuous_id.min continuous_const
        exact (((continuous_const.mul hmin).sub
          ((continuous_const.mul (hmin.pow 2))))).continuousAt
    · intro t1 ht1 t2 ht2 h12
      by_cases hs1 : s < 1
      · simp [predictDisplacement, hs1]
      · rw [predictDisplacement_eq_min s k t1 hk hs1,
          predictDisplacement_eq_min s k t2 hk hs1,
          min_eq_left ht1.2, min_eq_left ht2.2]
        have h2k : t2 * k ≤ s := (le_div_iff₀ hk).mp ht2.2
        nlinarith [mul_nonneg (sub_nonneg.mpr h12) hk.le,
          mul_nonneg (sub_nonneg.mpr h12) (sub_nonneg.mpr h2k)]
    · intro t hts
      by_cases hs1 : s < 1
      · simp [predictDisplacement, hs1]
      · simp only [predictDisplacement, hs1, if_false, hts, if_true, le_refl]

/-- Witness for C7: the property instantiated at speed `100` and
`k = 0.03`, which satisfy the hypotheses `0 ≤ s` and `0 < k`. -/
theorem claim_C7_witness :
    (0 : ℝ) ≤ 100 ∧ (0 : ℝ) < 3 / 100 ∧
    ContinuousAt (predictDisplacement 100 (3 / 100)) (100 / (3 / 100)) := by
  exact ⟨by norm_num, by norm_num,
    (claim_C7.2 100 (3 / 100) (by norm_num) (by norm_num)).1⟩

theorem point2f.length_nonneg (p : point2f) : 0 ≤ p.length :=
  Real.sqrt_nonneg _

/-- Branch-normalised form of `predictTimeToPosition` for a moving ball
whose target is within maximum range. -/
theorem predictTime_unfold (b : BallState) (target : point2f)
    (hs : ¬ b.speed < 1)
    (hd : ¬ (0.5 * b.speed * b.speed / frictionCoef < (target - b.position).length)) :
    predictTimeToPosition b target =
      (let s := b.speed
       let d := (target - b.position).length
       let r := Real.sqrt (s ^ 2 - 2 * frictionCoef * d)
       if s ^ 2 - 2 * frictionCoef * d < 0 then -1
       else if 0 < (s + r) / frictionCoef ∧ 0 < (s - r) / frictionCoef then
         min ((s + r) / frictionCoef) ((s - r) / frictionCoef)
       else if 0 < (s + r) / frictionCoef then (s + r) / frictionCoef
       else if 0 < (s - r) / frictionCoef then (s - r) / frictionCoef
       else -1) := by
  have e1 : -b.speed * -b.speed - 4 * (0.5 * frictionCoef) * (target - b.position).length
      = b.speed ^ 2 - 2 * frictionCoef * (target - b.position).length := by ring
  have e2 : 2 * (0.5 * frictionCoef) = frictionCoef := by ring
  simp only [predictTimeToPosition, if_neg hs, if_neg hd, neg_neg, e1, e2]

/-- For a moving ball and an in-range target, `predictTimeToPosition`
is positive, and for a strictly positive distance it equals the smaller
quadratic root `(speed - sqrt(speed² - 2·k·distance)) / k`. -/
theorem predictTime_formula (b : BallState) (target : point2f)
    (hs : 1 ≤ b.speed)
    (hd : (target - b.position).length ≤ 0.5 * b.speed * b.speed / frictionCoef) :
    0 < predictTimeToPosition b target ∧
    (0 < (target - b.position).length →
      predictTimeToPosition b target =
        (b.speed - Real.sqrt (b.speed ^ 2 -
          2 * frictionCoef * (target - b.position).length)) / frictionCoef) := by
  have hk : (0 : ℝ) < frictionCoef := by norm_num [frictionCoef]
  have hs0 : ¬ b.speed < 1 := not_lt.mpr hs
  have hd0 : ¬ (0.5 * b.speed * b.speed / frictionCoef <
      (target - b.position).length) := not_lt.mpr hd
  rw [predictTime_unfold b target hs0 hd0]
  have hdnn : 0 ≤ (target - b.position).length := point2f.length_nonneg _
  have hd2 : (target - b.position).length * frictionCoef ≤ 0.5 * b.speed * b.speed :=
    (le_div_iff₀ hk).mp hd
  have hδ : 0 ≤ b.speed ^ 2 - 2 * frictionCoef * (target - b.position).length := by
    nlinarith
  have hr0 : 0 ≤ Real.sqrt (b.speed ^ 2 -
      2 * frictionCoef * (target - b.position).length) := Real.sqrt_nonneg _
  have hr2 : Real.sqrt (b.speed ^ 2 -
        2 * frictionCoef * (target - b.position).length) ^ 2 =
      b.speed ^ 2 - 2 * frictionCoef * (target - b.position).length :=
    Real.sq_sqrt hδ
  have hrs : Real.sqrt (b.speed ^ 2 -
      2 * frictionCoef * (target - b.position).length) ≤ b.speed := by
    nlinarith [hr2, hr0, hdnn, hk.le, hs]
  have ht1 : 0 < (b.speed + Real.sqrt (b.speed ^ 2 -
      2 * frictionCoef * (target - b.position).length)) / frictionCoef :=
    div_pos (by linarith) hk
  simp only
  rw [if_neg (not_lt.mpr hδ)]
  constructor
  · by_cases h2 : 0 < (b.speed - Real.sqrt (b.speed ^ 2 -
        2 * frictionCoef * (target - b.position).length)) / frictionCoef
    · rw [if_pos ⟨ht1, h2⟩]; exact lt_min ht1 h2
    · rw [if_neg (fun hcon => h2 hcon.2), if_pos ht1]; exact ht1
  · intro hdpos
    have hrlt : Real.sqrt (b.speed ^ 2 -
        2 * frictionCoef * (target - b.position).length) < b.speed := by
      nlinarith [hr2, hr0, hk]
    have ht2 : 0 < (b.speed - Real.sqrt (b.speed ^ 2 -
        2 * frictionCoef * (target - b.position).length)) / frictionCoef :=
      div_pos (by linarith) hk
    rw [if_pos ⟨ht1, ht2⟩]
    exact min_eq_right ((div_le_div_right hk).mpr (by linarith))

/-- Counterexample to **C2** as stated: a ball moving with speed `0.5`
(below the stationary guard `1.0`) towards a target at distance `1`,
well within the maximum travel distance `0.5·speed²/k ≈ 4.17`, still
yields the unreachable sentinel `-1`, so the sentinel is *not* returned
exactly when `distance > 0.5·speed²/k`. -/
theorem claim_C2_counterexample :
    predictTimeToPosition slowBall ⟨1, 0⟩ = -1 ∧
    0 < ((⟨1, 0⟩ : point2f) - slowBall.position).length ∧
    ((⟨1, 0⟩ : point2f) - slowBall.position).length ≤
      0.5 * slowBall.speed * slowBall.speed / frictionCoef := by
  have hsp : slowBall.speed = 1 / 2 := by
    have h : ((1 / 2 : ℝ) ^ 2 + 0 ^ 2) = (1 / 2) ^ 2 := by norm_num
    simp only [BallState.speed, point2f.length, slowBall, h]
    rw [Real.sqrt_sq (by norm_num)]
  have hlen : ((⟨1, 0⟩ : point2f) - slowBall.position).length = 1 := by
    show Real.sqrt (((1 : ℝ) - 0) ^ 2 + ((0 : ℝ) - 0) ^ 2) = 1
    rw [show ((1 : ℝ) - 0) ^ 2 + ((0 : ℝ) - 0) ^ 2 = 1 ^ 2 by norm_num]
    exact Real.sqrt_sq (by norm_num)
  refine ⟨?_, ?_, ?_⟩
  · simp only [predictTimeToPosition, hsp]
    norm_num
  · rw [hlen]; norm_num
  · rw [hlen, hsp]; norm_num [frictionCoef]

/-- **C2** (amended): `predictTimeToPosition` returns the unreachable
sentinel `-1` exactly when the speed is below the stationary threshold
`1.0` or the distance exceeds the maximum travel `0.5·speed²/k`; for a
moving ball and a target at positive in-range distance it returns a
positive time that is a root of `0.5·k·t² - speed·t + distance = 0`, is
the smallest positive root, and at which the predicted displacement
equals the distance exactly. -/
theorem claim_C2 (b : BallState) (target : point2f) :
    (predictTimeToPosition b target = -1 ↔
      (b.speed < 1 ∨
        0.5 * b.speed * b.speed / frictionCoef < (target - b.position).length)) ∧
    (1 ≤ b.speed →
      0 < (target - b.position).length →
      (target - b.position).length ≤ 0.5 * b.speed * b.speed / frictionCoef →
      0 < predictTimeToPosition b target ∧
      0.5 * frictionCoef * predictTimeToPosition b target ^ 2 -
        b.speed * predictTimeToPosition b target +
        (target - b.position).length = 0 ∧
      (∀ t', 0 < t' →
        0.5 * frictionCoef * t' ^ 2 - b.speed * t' +
          (target - b.position).length = 0 →
        predictTimeToPosition b target ≤ t') ∧
      predictDisplacement b.speed frictionCoef (predictTimeToPosition b target) =
        (target - b.position).length) := by
  have hk : (0 : ℝ) < frictionCoef := by norm_num [frictionCoef]
  constructor
  · constructor
    · intro hres
      by_contra hc
      push_neg at hc
      have h1 : 1 ≤ b.speed := not_lt.mp (fun h => absurd h (by
        intro hh; exact absurd hh (by simp [hc.1])))
      have := (predictTime_formula b target (not_lt.mp (by simp [hc.1])) hc.2).1
      rw [hres] at this
      linarith
    · intro h
      rcases h with h | h
      · simp only [predictTimeToPosition, if_pos h]
      · have : ¬ b.speed < 1 ∨ b.speed < 1 := (em _).symm
        by_cases hs : b.speed < 1
        · simp only [predictTimeToPosition, if_pos hs]
        · simp only [predictTimeToPosition, if_neg hs, if_pos h]
  · intro hs hdpos hdle
    obtain ⟨hpos, heq⟩ := predictTime_formula b target hs hdle
    have hform := heq hdpos
    have hdnn : 0 ≤ (target - b.position).length := point2f.length_nonneg _
    have hd2 : (target - b.position).length * frictionCoef ≤ 0.5 * b.speed * b.speed :=
      (le_div_iff₀ hk).mp hdle
    have hδ : 0 ≤ b.speed ^ 2 - 2 * frictionCoef * (target - b.position).length := by
      nlinarith
    have hr0 : 0 ≤ Real.sqrt (b.speed ^ 2 -
        2 * frictionCoef * (target - b.position).length) := Real.sqrt_nonneg _
    have hr2 : Real.sqrt (b.speed ^ 2 -
          2 * frictionCoef * (target - b.position).length) ^ 2 =
        b.speed ^ 2 - 2 * frictionCoef * (target - b.position).length :=
      Real.sq_sqrt hδ
    have hkne : frictionCoef ≠ 0 := ne_of_gt hk
    refine ⟨hpos, ?_, ?_, ?_⟩
    · rw [hform]
      field_simp
      nlinarith [hr2]
    · intro t' ht' hroot
      rw [hform]
      have key : (frictionCoef * t' - (b.speed + Real.sqrt (b.speed ^ 2 -
            2 * frictionCoef * (target - b.position).length))) *
          (frictionCoef * t' - (b.speed - Real.sqrt (b.speed ^ 2 -
            2 * frictionCoef * (target - b.position).length))) = 0 := by
        linear_combination (2 * frictionCoef) * hroot - hr2
      rcases mul_eq_zero.mp key with hcase | hcase
      · have : t' = (b.speed + Real.sqrt (b.speed ^ 2 -
            2 * frictionCoef * (target - b.position).length)) / frictionCoef := by
          field_simp
          linarith [hcase]
        rw [this]
        apply (div_le_div_right hk).mpr
        linarith
      · have : t' = (b.speed - Real.sqrt (b.speed ^ 2 -
            2 * frictionCoef * (target - b.position).length)) / frictionCoef := by
          field_simp
          linarith [hcase]
        rw [this]
    · rw [hform]
      set r := Real.sqrt (b.speed ^ 2 -
        2 * frictionCoef * (target - b.position).length) with hrdef
      have hs0 : ¬ b.speed < 1 := not_lt.mpr hs
      by_cases hclamp : b.speed / frictionCoef ≤ (b.speed - r) / frictionCoef
      · have hrle : r ≤ 0 := by
          have := (div_le_div_right hk).mp hclamp
          linarith
        have hr00 : r = 0 := le_antisymm hrle hr0
        have hdmax : 2 * frictionCoef * (target - b.position).length = b.speed ^ 2 := by
          have := hr2
          rw [hr00] at this
          nlinarith [this]
        simp only [predictDisplacement, if_neg hs0, if_pos hclamp]
        field_simp
        nlinarith [hdmax]
      · simp only [predictDisplacement, if_neg hs0, if_neg hclamp]
        field_simp
        nlinarith [hr2]

/-- Witness for C2 (amended): instantiated at the example ball (speed
`100`) and target `(60, 0)` at distance `60`, which is positive and
within the maximum travel distance. -/
theorem claim_C2_witness :
    (1 : ℝ) ≤ exampleBall.speed ∧
    0 < ((⟨60, 0⟩ : point2f) - exampleBall.position).length ∧
    ((⟨60, 0⟩ : point2f) - exampleBall.position).length ≤
      0.5 * exampleBall.speed * exampleBall.speed / frictionCoef ∧
    0 < predictTimeToPosition exampleBall ⟨60, 0⟩ := by
  have hsp : exampleBall.speed = 100 := exampleBall_speed
  have hlen : ((⟨60, 0⟩ : point2f) - exampleBall.position).length = 60 := by
    show Real.sqrt (((60 : ℝ) - 0) ^ 2 + ((0 : ℝ) - 0) ^ 2) = 60
    rw [show ((60 : ℝ) - 0) ^ 2 + ((0 : ℝ) - 0) ^ 2 = 60 ^ 2 by norm_num]
    exact Real.sqrt_sq (by norm_num)
  have h1 : (1 : ℝ) ≤ exampleBall.speed := by rw [hsp]; norm_num
  have h2 : 0 < ((⟨60, 0⟩ : point2f) - exampleBall.position).length := by
    rw [hlen]; norm_num
  have h3 : ((⟨60, 0⟩ : point2f) - exampleBall.position).length ≤
      0.5 * exampleBall.speed * exampleBall.speed / frictionCoef := by
    rw [hlen, hsp]; norm_num [frictionCoef]
  exact ⟨h1, h2, h3, ((claim_C2 exampleBall ⟨60, 0⟩).2 h1 h2 h3).1⟩

theorem anglemod_zero : anglemod 0 = 0 := by
  simp [anglemod]

theorem anglemod_neg_pi : anglemod (-Real.pi) = -Real.pi := by
  have h2 : (2 : ℝ) * Real.pi ≠ 0 := by
    positivity
  have h : (-Real.pi) / (2 * Real.pi) = -(1 / 2) := by
    rw [div_eq_iff h2]
    ring
  rw [anglemod, h]
  rw [show round (-(1 / 2) : ℝ) = 0 by rw [round_eq]; norm_num]
  push_cast
  ring

theorem exampleBall_bearing_back :
    exampleBall.directionTo ⟨-100, 0⟩ = Real.pi := by
  have h : ((⟨-100 - 0, 0 - 0⟩ : Complex)) = ((-100 : ℝ) : ℂ) := by
    apply Complex.ext <;> norm_num
  show Complex.arg ⟨-100 - 0, 0 - 0⟩ = Real.pi
  rw [h]
  exact Complex.arg_ofReal_of_neg (by norm_num)

/-- **C9** (code bug evaluation): for the ball at `(0,0)` moving with
velocity `(100,0)` — heading `0` — and the target `(-100,0)` directly
behind it — bearing `π` — the difference between heading and bearing is
`π`, far above the tolerance `π/8`, yet
`BallTools::isMovingTowardsTarget` returns true, because the shadowed
parameter makes the body compare the bearing with itself.  The
correctly implemented `Ball::isMovingToward` of foot/1/ball.h returns
false on the same input, as the claim requires. -/
theorem claim_C9 :
    BallState.isMovingTowardsTarget exampleBall ⟨-100, 0⟩ (Real.pi / 8) ∧
    |anglemod (exampleBall.direction - exampleBall.directionTo ⟨-100, 0⟩)| =
      Real.pi ∧
    Real.pi / 8 < Real.pi ∧
    ¬ Ball.isMovingToward exampleBall ⟨-100, 0⟩ (Real.pi / 8) := by
  have hsp : exampleBall.speed = 100 := exampleBall_speed
  have hdir : exampleBall.direction = 0 := exampleBall_direction
  have hbear : exampleBall.directionTo ⟨-100, 0⟩ = Real.pi := exampleBall_bearing_back
  have hmoving : exampleBall.isMoving 10 := by
    show (10 : ℝ) < exampleBall.speed
    rw [hsp]; norm_num
  have hgap : |anglemod (exampleBall.direction -
      exampleBall.directionTo ⟨-100, 0⟩)| = Real.pi := by
    rw [hdir, hbear, zero_sub, anglemod_neg_pi, abs_neg,
      abs_of_pos Real.pi_pos]
  refine ⟨⟨hmoving, hmoving, ?_⟩, hgap, ?_, ?_⟩
  · rw [sub_self, anglemod_zero, abs_zero]
    positivity
  · linarith [Real.pi_pos]
  · rintro ⟨-, habs⟩
    have hgd : Ball.getDirection exampleBall = 0 := by
      rw [Ball.getDirection, if_pos (by rw [hsp]; norm_num),
        show exampleBall.velocity.angle = exampleBall.direction from rfl, hdir]
    rw [hgd] at habs
    have : |anglemod (0 - ((⟨-100, 0⟩ : point2f) - exampleBall.position).angle)| =
        Real.pi := by
      rw [show ((⟨-100, 0⟩ : point2f) - exampleBall.position).angle =
          exampleBall.directionTo ⟨-100, 0⟩ from rfl, hbear, zero_sub,
        anglemod_neg_pi, abs_neg, abs_of_pos Real.pi_pos]
    rw [this] at habs
    linarith [Real.pi_pos]

theorem abs_anglemod_le_pi (a : ℝ) : |anglemod a| ≤ Real.pi := by
  have hpi : (0 : ℝ) < Real.pi := Real.pi_pos
  have h2 : (0 : ℝ) < 2 * Real.pi := by linarith
  have hr := abs_sub_round (a / (2 * Real.pi))
  have hrepr : anglemod a =
      2 * Real.pi * (a / (2 * Real.pi) - (round (a / (2 * Real.pi)) : ℤ)) := by
    rw [anglemod]
    field_simp
  rw [hrepr, abs_mul, abs_of_pos h2]
  nlinarith [hr]

theorem cos_anglemod (a : ℝ) : Real.cos (anglemod a) = Real.cos a := by
  rw [anglemod, show a - 2 * Real.pi * (round (a / (2 * Real.pi)) : ℤ) =
    a - (round (a / (2 * Real.pi)) : ℤ) * (2 * Real.pi) by ring]
  exact Real.cos_sub_int_mul_two_pi a _

/-- The forward-cone condition of the possession test, coordinate-free:
the normalised angle gap is below `π/4` exactly when the cosine of the
raw gap exceeds `√2/2`. -/
theorem abs_anglemod_lt_pi_div_four (a : ℝ) :
    |anglemod a| < Real.pi / 4 ↔ Real.sqrt 2 / 2 < Real.cos a := by
  have hpi : (0 : ℝ) < Real.pi := Real.pi_pos
  have hbound := abs_anglemod_le_pi a
  rw [← cos_anglemod a, ← Real.cos_pi_div_four, ← Real.cos_abs (anglemod a)]
  constructor
  · intro h
    exact Real.cos_lt_cos_of_nonneg_of_le_pi (by positivity)
      (by linarith) h
  · intro h
    by_contra hc
    push_neg at hc
    have := Real.cos_le_cos_of_nonneg_of_le_pi (by positivity) hbound hc
    linarith

/-- **C6**: the possession test holds iff the distance between entity
and ball is below the control radius and the ball lies in the forward
cone of half-angle `π/4` around the entity heading (equivalently: the
cosine of the heading-to-bearing gap exceeds `√2/2`).  In particular an
entity at `(0,0)` facing `0` possesses a ball at `(30,0)` (radius 50)
and does not possess a ball at `(30,1000)`. -/
theorem claim_C6 :
    (∀ (playerPos : point2f) (playerDir : ℝ) (ballPos : point2f) (radius : ℝ),
      hasBallCheck playerPos playerDir ballPos radius ↔
        ((ballPos - playerPos).length < radius ∧
          Real.sqrt 2 / 2 <
            Real.cos ((ballPos - playerPos).angle - playerDir))) ∧
    hasBallCheck ⟨0, 0⟩ 0 ⟨30, 0⟩ 50 ∧
    ¬ hasBallCheck ⟨0, 0⟩ 0 ⟨30, 1000⟩ 50 := by
  refine ⟨?_, ⟨?_, ?_⟩, ?_⟩
  · intro playerPos playerDir ballPos radius
    exact and_congr_right fun _ => abs_anglemod_lt_pi_div_four _
  · show Real.sqrt (((30 : ℝ) - 0) ^ 2 + ((0 : ℝ) - 0) ^ 2) < 50
    rw [show ((30 : ℝ) - 0) ^ 2 + ((0 : ℝ) - 0) ^ 2 = 30 ^ 2 by norm_num,
      Real.sqrt_sq (by norm_num)]
    norm_num
  · have hang : ((⟨30, 0⟩ : point2f) - ⟨0, 0⟩).angle = 0 := by
      show Complex.arg ⟨(30 : ℝ) - 0, (0 : ℝ) - 0⟩ = 0
      rw [show (⟨(30 : ℝ) - 0, (0 : ℝ) - 0⟩ : Complex) = ((30 : ℝ) : ℂ) by
        apply Complex.ext <;> norm_num]
      exact Complex.arg_ofReal_of_nonneg (by norm_num)
    rw [hang, sub_zero, anglemod_zero, abs_zero]
    positivity
  · rintro ⟨hdist, -⟩
    have hge : (50 : ℝ) ≤ ((⟨30, 1000⟩ : point2f) - ⟨0, 0⟩).length := by
      show (50 : ℝ) ≤ Real.sqrt (((30 : ℝ) - 0) ^ 2 + ((1000 : ℝ) - 0) ^ 2)
      have h1 : Real.sqrt 2500 ≤
          Real.sqrt (((30 : ℝ) - 0) ^ 2 + ((1000 : ℝ) - 0) ^ 2) :=
        Real.sqrt_le_sqrt (by norm_num)
      rw [show (2500 : ℝ) = 50 ^ 2 by norm_num, Real.sqrt_sq (by norm_num)] at h1
      exact h1
    linarith

/-- If no slot of the remaining list matches with a score beating the
running best, the scan returns the carried best unchanged. -/
theorem selectAux_no_beat (ty : TacticType) :
    ∀ (l : List TacticRec) (bs : Rat) (best : Option TacticRec),
    (∀ t ∈ l, t.category = ty → t.score ≤ bs) →
    selectAux ty l bs best = best := by
  intro l
  induction l with
  | nil => intro bs best _; rfl
  | cons t rest ih =>
    intro bs best h
    by_cases htc : t.category = ty
    · have hle : t.score ≤ bs := h t (List.mem_cons_self t rest) htc
      unfold selectAux
      rw [if_neg (not_not_intro htc), if_neg (not_lt.mpr hle)]
      exact ih bs best fun u hu => h u (List.mem_cons_of_mem t hu)
    · unfold selectAux
      rw [if_pos htc]
      exact ih bs best fun u hu => h u (List.mem_cons_of_mem t hu)

/-- If some slot of the remaining list matches the category and beats
the running best score, the scan returns the earliest candidate whose
score beats everything before it and is not beaten later: it is a
maximal-score candidate and every earlier candidate scores strictly
less. -/
theorem selectAux_found (ty : TacticType) :
    ∀ (l : List TacticRec) (bs : Rat) (best : Option TacticRec),
    (∃ t ∈ l, t.category = ty ∧ bs < t.score) →
    ∃ (r : TacticRec) (l1 l2 : List TacticRec),
      l = l1 ++ r :: l2 ∧
      selectAux ty l bs best = some r ∧
      r.category = ty ∧ bs < r.score ∧
      (∀ t ∈ l, t.category = ty → t.score ≤ r.score) ∧
      (∀ t ∈ l1, t.category = ty → t.score < r.score) := by
  intro l
  induction l with
  | nil =>
    rintro bs best ⟨t, ht, -⟩
    exact absurd ht (List.not_mem_nil t)
  | cons t rest ih =>
    intro bs best hex
    by_cases htc : t.category = ty
    · by_cases hbs : bs < t.score
      · by_cases hrest : ∃ u ∈ rest, u.category = ty ∧ t.score < u.score
        · obtain ⟨r, l1, l2, heq, hsel, hrc, hrs, hmax, hstrict⟩ :=
            ih t.score (some t) hrest
          refine ⟨r, t :: l1, l2, by rw [heq]; rfl, ?_, hrc,
            lt_trans hbs hrs, ?_, ?_⟩
          · unfold selectAux
            rw [if_neg (not_not_intro htc), if_pos hbs]
            exact hsel
          · intro u hu huc
            rcases List.mem_cons.mp hu with rfl | hu
            · exact le_of_lt hrs
            · exact hmax u hu huc
          · intro u hu huc
            rcases List.mem_cons.mp hu with rfl | hu
            · exact hrs
            · exact hstrict u hu huc
        · push_neg at hrest
          refine ⟨t, [], rest, rfl, ?_, htc, hbs, ?_, ?_⟩
          · unfold selectAux
            rw [if_neg (not_not_intro htc), if_pos hbs]
            exact selectAux_no_beat ty rest t.score (some t) hrest
          · intro u hu huc
            rcases List.mem_cons.mp hu with rfl | hu
            · exact le_refl _
            · exact hrest u hu huc
          · intro u hu
            exact absurd hu (List.not_mem_nil u)
      · have hex' : ∃ u ∈ rest, u.category = ty ∧ bs < u.score := by
          obtain ⟨u, hu, huc, hus⟩ := hex
          rcases List.mem_cons.mp hu with rfl | hu
          · exact absurd hus hbs
          · exact ⟨u, hu, huc, hus⟩
        obtain ⟨r, l1, l2, heq, hsel, hrc, hrs, hmax, hstrict⟩ :=
          ih bs best hex'
        refine ⟨r, t :: l1, l2, by rw [heq]; rfl, ?_, hrc, hrs, ?_, ?_⟩
        · unfold selectAux
          rw [if_neg (not_not_intro htc), if_neg hbs]
          exact hsel
        · intro u hu huc
          rcases List.mem_cons.mp hu with rfl | hu
          · exact le_trans (le_of_not_lt hbs) (le_of_lt hrs)
          · exact hmax u hu huc
        · intro u hu huc
          rcases List.mem_cons.mp hu with rfl | hu
          · exact lt_of_le_of_lt (le_of_not_lt hbs) hrs
          · exact hstrict u hu huc
    · have hex' : ∃ u ∈ rest, u.category = ty ∧ bs < u.score := by
        obtain ⟨u, hu, huc, hus⟩ := hex
        rcases List.mem_cons.mp hu with rfl | hu
        · exact absurd huc htc
        · exact ⟨u, hu, huc, hus⟩
      obtain ⟨r, l1, l2, heq, hsel, hrc, hrs, hmax, hstrict⟩ :=
        ih bs best hex'
      refine ⟨r, t :: l1, l2, by rw [heq]; rfl, ?_, hrc, hrs, ?_, ?_⟩
      · unfold selectAux
        rw [if_pos htc]
        exact hsel
      · intro u hu huc
        rcases List.mem_cons.mp hu with rfl | hu
        · exact absurd huc htc
        · exact hmax u hu huc
      · intro u hu huc
        rcases List.mem_cons.mp hu with rfl | hu
        · exact absurd huc htc
        · exact hstrict u hu huc

/-- **C3**: whenever the catalog contains at least one tactic of the
requested category and every registered score is non-negative (every
`evaluate()` score lies in `[0,1]`), `selectBestTactic` returns a
tactic of that category whose score is maximal among same-category
candidates, and every same-category candidate registered earlier
scores strictly less — so on a tie the earliest-registered one wins. -/
theorem claim_C3 (tactics : List TacticRec) (ty : TacticType)
    (hscores : ∀ t ∈ tactics, 0 ≤ t.score)
    (hcand : ∃ t ∈ tactics, t.category = ty) :
    ∃ (r : TacticRec) (l1 l2 : List TacticRec),
      tactics = l1 ++ r :: l2 ∧
      selectBestTactic tactics ty = some r ∧
      r.category = ty ∧
      (∀ t ∈ tactics, t.category = ty → t.score ≤ r.score) ∧
      (∀ t ∈ l1, t.category = ty → t.score < r.score) := by
  obtain ⟨t, ht, htc⟩ := hcand
  have hex : ∃ u ∈ tactics, u.category = ty ∧ (-1 : Rat) < u.score :=
    ⟨t, ht, htc, lt_of_lt_of_le (by norm_num) (hscores t ht)⟩
  obtain ⟨r, l1, l2, heq, hsel, hrc, -, hmax, hstrict⟩ :=
    selectAux_found ty tactics (-1) none hex
  exact ⟨r, l1, l2, heq, hsel, hrc, hmax, hstrict⟩

/-- Witness for C3: the spec's example — two defense tactics tied at
score `0.8`; the earliest-registered (`ManMarking`) is selected. -/
theorem claim_C3_witness :
    (∀ t ∈ [⟨"ManMarking", TacticType.DEFENSE, 4 / 5⟩,
            ⟨"ZoneDefense", TacticType.DEFENSE, 4 / 5⟩],
      (0 : Rat) ≤ TacticRec.score t) ∧
    (∃ t ∈ [(⟨"ManMarking", TacticType.DEFENSE, 4 / 5⟩ : TacticRec),
            ⟨"ZoneDefense", TacticType.DEFENSE, 4 / 5⟩],
      t.category = TacticType.DEFENSE) ∧
    selectBestTactic
      [⟨"ManMarking", TacticType.DEFENSE, 4 / 5⟩,
       ⟨"ZoneDefense", TacticType.DEFENSE, 4 / 5⟩] TacticType.DEFENSE =
      some ⟨"ManMarking", TacticType.DEFENSE, 4 / 5⟩ ∧
    (∃ (r : TacticRec) (l1 l2 : List TacticRec),
      [(⟨"ManMarking", TacticType.DEFENSE, 4 / 5⟩ : TacticRec),
       ⟨"ZoneDefense", TacticType.DEFENSE, 4 / 5⟩] = l1 ++ r :: l2 ∧
      selectBestTactic
        [⟨"ManMarking", TacticType.DEFENSE, 4 / 5⟩,
         ⟨"ZoneDefense", TacticType.DEFENSE, 4 / 5⟩] TacticType.DEFENSE =
        some r ∧
      r.category = TacticType.DEFENSE ∧
      (∀ t ∈ [(⟨"ManMarking", TacticType.DEFENSE, 4 / 5⟩ : TacticRec),
              ⟨"ZoneDefense", TacticType.DEFENSE, 4 / 5⟩],
        t.category = TacticType.DEFENSE → t.score ≤ r.score) ∧
      (∀ t ∈ l1, t.category = TacticType.DEFENSE → t.score < r.score)) := by
  have hsc : ∀ t ∈ [(⟨"ManMarking", TacticType.DEFENSE, 4 / 5⟩ : TacticRec),
      ⟨"ZoneDefense", TacticType.DEFENSE, 4 / 5⟩], (0 : Rat) ≤ TacticRec.score t := by
    intro t ht
    rcases List.mem_cons.mp ht with rfl | ht
    · norm_num
    · rcases List.mem_cons.mp ht with rfl | ht
      · norm_num
      · exact absurd ht (List.not_mem_nil t)
  have hcand : ∃ t ∈ [(⟨"ManMarking", TacticType.DEFENSE, 4 / 5⟩ : TacticRec),
      ⟨"ZoneDefense", TacticType.DEFENSE, 4 / 5⟩], t.category = TacticType.DEFENSE :=
    ⟨⟨"ManMarking", TacticType.DEFENSE, 4 / 5⟩, List.mem_cons_self _ _, rfl⟩
  refine ⟨hsc, hcand, ?_, claim_C3 _ _ hsc hcand⟩
  show selectAux TacticType.DEFENSE _ _ _ = _
  rw [selectAux, if_neg (by simp), if_pos (by norm_num),
    selectAux, if_neg (by simp), if_neg (by norm_num), selectAux]

theorem selectAux_all_skip (ty : TacticType) :
    ∀ (l : List TacticRec) (bs : Rat) (best : Option TacticRec),
    (∀ t ∈ l, t.category ≠ ty) →
    selectAux ty l bs best = best := by
  intro l
  induction l with
  | nil => intro bs best _; rfl
  | cons t rest ih =>
    intro bs best h
    unfold selectAux
    rw [if_pos (h t (List.mem_cons_self t rest))]
    exact ih bs best fun u hu => h u (List.mem_cons_of_mem t hu)

/-- **C10**: when no registered tactic has the requested category,
`selectBestTactic` returns the null pointer (`none`) rather than a
tactic of another category; robot2's decision loop null-checks the
result and falls back to the default heuristic; robot1's catalog
(three attack tactics and one transition tactic) yields `none` for the
defense and special-situation categories whatever the scores are. -/
theorem claim_C10 :
    (∀ (tactics : List TacticRec) (ty : TacticType),
      (∀ t ∈ tactics, t.category ≠ ty) →
      selectBestTactic tactics ty = none) ∧
    (∀ (tactics : List TacticRec) (half : Bool),
      (∀ t ∈ tactics,
        t.category ≠ (if half then TacticType.DEFENSE else TacticType.ATTACK)) →
      robot2NormalPlay tactics half = DecisionBranch.defaultBehavior) ∧
    (∀ s1 s2 s3 s4 : Rat,
      selectBestTactic (robot1Catalog s1 s2 s3 s4) TacticType.DEFENSE = none ∧
      selectBestTactic (robot1Catalog s1 s2 s3 s4)
        TacticType.SPECIAL_SITUATION = none) := by
  have hnone : ∀ (tactics : List TacticRec) (ty : TacticType),
      (∀ t ∈ tactics, t.category ≠ ty) →
      selectBestTactic tactics ty = none :=
    fun tactics ty h => selectAux_all_skip ty tactics (-1) none h
  refine ⟨hnone, ?_, ?_⟩
  · intro tactics half h
    simp only [robot2NormalPlay]
    rw [hnone _ _ h]
  · intro s1 s2 s3 s4
    constructor
    · apply hnone
      intro t ht
      simp only [robot1Catalog, List.mem_cons, List.mem_singleton] at ht
      rcases ht with rfl | rfl | rfl | rfl | h
      · simp
      · simp
      · simp
      · simp
      · exact absurd h (List.not_mem_nil t)
    · apply hnone
      intro t ht
      simp only [robot1Catalog, List.mem_cons, List.mem_singleton] at ht
      rcases ht with rfl | rfl | rfl | rfl | h
      · simp
      · simp
      · simp
      · simp
      · exact absurd h (List.not_mem_nil t)

/-- Witness for C10: the empty catalog has no defense tactic, so
selection yields `none`; robot1's concrete catalog makes robot2's defense branch fall
back to the default heuristic. -/
theorem claim_C10_witness :
    (∀ t ∈ ([] : List TacticRec), t.category ≠ TacticType.DEFENSE) ∧
    selectBestTactic [] TacticType.DEFENSE = none ∧
    robot2NormalPlay (robot1Catalog 0 0 0 0) true =
      DecisionBranch.defaultBehavior := by
  refine ⟨by decide, claim_C10.1 [] TacticType.DEFENSE (by decide),
    claim_C10.2.1 (robot1Catalog 0 0 0 0) true (by decide)⟩

theorem directAttackRaw_bounds (i : DirectAttackSituation) :
    0 ≤ directAttackRaw i ∧ directAttackRaw i ≤ 10 := by
  rcases i with ⟨b, c, d, g⟩
  unfold directAttackRaw
  rcases c with _ | dd <;> dsimp only <;> split_ifs <;> norm_num

theorem passAndShootRaw_bounds (i : PassAndShootSituation) :
    0 ≤ passAndShootRaw i ∧ passAndShootRaw i ≤ 9 := by
  rcases i with ⟨b, n, c, m⟩
  unfold passAndShootRaw
  dsimp only
  split_ifs <;> norm_num

/-- Counterexample to **C8** as stated: with every condition favourable
`PassAndShootTactic::evaluate` accumulates the maximum attainable raw
score `9` but returns `9 / 10 = 0.9`, not the raw score divided by the
maximum attainable raw score (`9 / 9 = 1`): the normaliser is the fixed
constant `10`, not the per-tactic maximum. -/
theorem claim_C8_counterexample :
    passAndShootRaw bestPassAndShootSituation = passAndShootMaxRaw ∧
    passAndShootEvaluate bestPassAndShootSituation = 9 / 10 ∧
    passAndShootEvaluate bestPassAndShootSituation ≠
      passAndShootRaw bestPassAndShootSituation / passAndShootMaxRaw := by
  have hraw : passAndShootRaw bestPassAndShootSituation = 9 := by
    norm_num [passAndShootRaw, bestPassAndShootSituation]
  refine ⟨by rw [hraw]; rfl, ?_, ?_⟩
  · rw [passAndShootEvaluate, hraw]
  · rw [passAndShootEvaluate, hraw]
    norm_num [passAndShootMaxRaw]

/-- **C8** (amended): for the two weighted-sum tactics the score is the
raw weighted sum divided by the fixed constant `10` (not by the
per-tactic maximum raw score), and every score lies in `[0,1]`; the
maximum attainable raw score is `10` for `DirectAttack` (whose
normalisation therefore does match its maximum) but `9` for
`PassAndShoot`, both attained. -/
theorem claim_C8 :
    (∀ i : DirectAttackSituation,
      directAttackEvaluate i = directAttackRaw i / 10 ∧
      0 ≤ directAttackEvaluate i ∧ directAttackEvaluate i ≤ 1 ∧
      0 ≤ directAttackRaw i ∧ directAttackRaw i ≤ directAttackMaxRaw) ∧
    (∀ i : PassAndShootSituation,
      passAndShootEvaluate i = passAndShootRaw i / 10 ∧
      0 ≤ passAndShootEvaluate i ∧ passAndShootEvaluate i ≤ 1 ∧
      0 ≤ passAndShootRaw i ∧ passAndShootRaw i ≤ passAndShootMaxRaw) ∧
    directAttackRaw ⟨true, some 0, 0, 0⟩ = directAttackMaxRaw ∧
    passAndShootRaw bestPassAndShootSituation = passAndShootMaxRaw := by
  refine ⟨?_, ?_, ?_, ?_⟩
  · intro i
    obtain ⟨h0, h10⟩ := directAttackRaw_bounds i
    refine ⟨rfl, div_nonneg h0 (by norm_num), ?_, h0, ?_⟩
    · rw [directAttackEvaluate, div_le_one (by norm_num)]
      linarith
    · rw [directAttackMaxRaw]
      exact h10
  · intro i
    obtain ⟨h0, h9⟩ := passAndShootRaw_bounds i
    refine ⟨rfl, div_nonneg h0 (by norm_num), ?_, h0, ?_⟩
    · rw [passAndShootEvaluate, div_le_one (by norm_num)]
      linarith
    · rw [passAndShootMaxRaw]
      exact h9
  · norm_num [directAttackRaw, directAttackMaxRaw]
  · norm_num [passAndShootRaw, bestPassAndShootSituation, passAndShootMaxRaw]

/-- The scan either keeps the carried result unchanged, or returns a
matching slot of the list whose timestamp beats the carried
`latest_timestamp`. -/
theorem receiveAux_cases (rid : Int) (filter : MessageType) :
    ∀ (l : List Msg) (latest : Int) (res : Msg),
    receiveAux rid filter l latest res = res ∨
    (receiveAux rid filter l latest res ∈ l ∧
      msgMatches rid filter (receiveAux rid filter l latest res) ∧
      latest < (receiveAux rid filter l latest res).timestamp) := by
  intro l
  induction l with
  | nil => intro latest res; left; rfl
  | cons s rest ih =>
    intro latest res
    by_cases hc : s.receiver_id = rid ∧
        (filter = MessageType.NONE ∨ s.type = filter) ∧ latest < s.timestamp
    · rw [receiveAux, if_pos hc]
      rcases ih s.timestamp s with h | ⟨hmem, hm, hts⟩
      · right
        rw [h]
        exact ⟨List.mem_cons_self s rest, ⟨hc.1, hc.2.1⟩, hc.2.2⟩
      · right
        exact ⟨List.mem_cons_of_mem s hmem, hm, lt_trans hc.2.2 hts⟩
    · rw [receiveAux, if_neg hc]
      rcases ih latest res with h | ⟨hmem, hm, hts⟩
      · left; exact h
      · right; exact ⟨List.mem_cons_of_mem s hmem, hm, hts⟩

/-- If no slot matches with a timestamp beating the carried one, the
scan returns the carried result. -/
theorem receiveAux_unchanged (rid : Int) (filter : MessageType) :
    ∀ (l : List Msg) (latest : Int) (res : Msg),
    (∀ s ∈ l, msgMatches rid filter s → s.timestamp ≤ latest) →
    receiveAux rid filter l latest res = res := by
  intro l
  induction l with
  | nil => intro latest res _; rfl
  | cons s rest ih =>
    intro latest res h
    have hc : ¬ (s.receiver_id = rid ∧
        (filter = MessageType.NONE ∨ s.type = filter) ∧ latest < s.timestamp) := by
      rintro ⟨h1, h2, h3⟩
      exact absurd h3 (not_lt.mpr (h s (List.mem_cons_self s rest) ⟨h1, h2⟩))
    rw [receiveAux, if_neg hc]
    exact ih latest res fun u hu => h u (List.mem_cons_of_mem s hu)

/-- If some slot matches with a timestamp beating the carried one, the
scan returns a matching slot of the list. -/
theorem receiveAux_found (rid : Int) (filter : MessageType) :
    ∀ (l : List Msg) (latest : Int) (res : Msg),
    (∃ s ∈ l, msgMatches rid filter s ∧ latest < s.timestamp) →
    receiveAux rid filter l latest res ∈ l ∧
    msgMatches rid filter (receiveAux rid filter l latest res) ∧
    latest < (receiveAux rid filter l latest res).timestamp := by
  intro l
  induction l with
  | nil =>
    rintro latest res ⟨s, hs, -⟩
    exact absurd hs (List.not_mem_nil s)
  | cons s rest ih =>
    intro latest res hex
    by_cases hc : s.receiver_id = rid ∧
        (filter = MessageType.NONE ∨ s.type = filter) ∧ latest < s.timestamp
    · rw [receiveAux, if_pos hc]
      rcases receiveAux_cases rid filter rest s.timestamp s with h | ⟨hmem, hm, hts⟩
      · rw [h]
        exact ⟨List.mem_cons_self s rest, ⟨hc.1, hc.2.1⟩, hc.2.2⟩
      · exact ⟨List.mem_cons_of_mem s hmem, hm, lt_trans hc.2.2 hts⟩
    · rw [receiveAux, if_neg hc]
      obtain ⟨u, hu, hm, hts⟩ := hex
      rcases List.mem_cons.mp hu with rfl | hu
      · exact absurd ⟨hm.1, hm.2, hts⟩ hc
      · obtain ⟨h1, h2, h3⟩ := ih latest res ⟨u, hu, hm, hts⟩
        exact ⟨List.mem_cons_of_mem s h1, h2, h3⟩

/-- The scan's result is at least as fresh as every matching slot whose
timestamp beats the carried `latest_timestamp`. -/
theorem receiveAux_max (rid : Int) (filter : MessageType) :
    ∀ (l : List Msg) (latest : Int) (res : Msg) (u : Msg),
    u ∈ l → msgMatches rid filter u → latest < u.timestamp →
    u.timestamp ≤ (receiveAux rid filter l latest res).timestamp := by
  intro l
  induction l with
  | nil =>
    intro latest res u hu
    exact absurd hu (List.not_mem_nil u)
  | cons s rest ih =>
    intro latest res u hu hmu hts
    by_cases hc : s.receiver_id = rid ∧
        (filter = MessageType.NONE ∨ s.type = filter) ∧ latest < s.timestamp
    · rw [receiveAux, if_pos hc]
      have hbase : s.timestamp ≤ (receiveAux rid filter rest s.timestamp s).timestamp := by
        rcases receiveAux_cases rid filter rest s.timestamp s with h | ⟨-, -, hlt⟩
        · rw [h]
        · exact le_of_lt hlt
      rcases List.mem_cons.mp hu with rfl | hu2
      · exact hbase
      · by_cases hu3 : s.timestamp < u.timestamp
        · exact ih s.timestamp s u hu2 hmu hu3
        · exact le_trans (not_lt.mp hu3) hbase
    · rw [receiveAux, if_neg hc]
      rcases List.mem_cons.mp hu with rfl | hu2
      · exact absurd ⟨hmu.1, hmu.2, hts⟩ hc
      · exact ih latest res u hu2 hmu hts

/-- A successful send never disturbs a non-empty slot whose message is
within the 10-cycle TTL of the sending cycle. -/
theorem sendAux_preserves (msg : Msg) (cycle : Int) :
    ∀ (l l' : List Msg) (m : Msg),
    sendAux msg cycle l = some l' → m ∈ l → m.type ≠ MessageType.NONE →
    cycle - 10 ≤ m.timestamp → m ∈ l' := by
  intro l
  induction l with
  | nil =>
    intro l' m hsend
    exact absurd hsend (by rw [sendAux]; exact Option.noConfusion)
  | cons s rest ih =>
    intro l' m hsend hmem htype httl
    by_cases he : s.type = MessageType.NONE ∨ s.timestamp < cycle - 10
    · rw [sendAux, if_pos he] at hsend
      have hl' : l' = msg :: rest := (Option.some.injEq _ _).mp hsend.symm
      rcases List.mem_cons.mp hmem with rfl | hmem2
      · rcases he with he | he
        · exact absurd he htype
        · exact absurd he (not_lt.mpr httl)
      · rw [hl']
        exact List.mem_cons_of_mem msg hmem2
    · rw [sendAux, if_neg he] at hsend
      obtain ⟨rest', hrest, hl'⟩ := Option.map_eq_some'.mp hsend
      rcases List.mem_cons.mp hmem with rfl | hmem2
      · rw [← hl']
        exact List.mem_cons_self m rest'
      · rw [← hl']
        exact List.mem_cons_of_mem s (ih rest' m hrest hmem2 htype httl)

/-- A whole sequence of sends, each issued within the TTL of a stored
message, preserves that message in the table. -/
theorem applySends_preserves :
    ∀ (ops : List SendOp) (table : List Msg) (m : Msg),
    m ∈ table → m.type ≠ MessageType.NONE →
    (∀ op ∈ ops, op.cycle - 10 ≤ m.timestamp) →
    m ∈ applySends table ops := by
  intro ops
  induction ops with
  | nil => intro table m hmem _ _; exact hmem
  | cons op rest ih =>
    intro table m hmem htype httl
    have hstep : m ∈ applySend table op := by
      rw [applySend]
      cases hsend : sendMessage table op.sender op.cycle op.receiver op.ty
          op.pos op.orient op.data with
      | none => exact hmem
      | some t' =>
        exact sendAux_preserves _ op.cycle table t' m hsend hmem htype
          (httl op (List.mem_cons_self op rest))
    exact ih (applySend table op) m hstep htype
      fun u hu => httl u (List.mem_cons_of_mem op hu)

set_option maxRecDepth 8000 in
/-- Counterexample to **C4** as stated: after `send(3, PASS_INTENTION,
(50,50))` at cycle 5 and `send(3, PASS_INTENTION, (60,60))` at cycle 6,
the first message still sits in its slot (not overwritten) and is well
within the TTL, yet no `receive` call by agent 3 — whatever the type
filter — returns it: the fresher second message shadows it.  So a
message is not retrievable until overwrite or TTL expiry. -/
theorem claim_C4_counterexample :
    examplePassMsg ∈ shadowTable ∧
    examplePassMsg.type ≠ MessageType.NONE ∧
    (6 : Int) - 10 ≤ examplePassMsg.timestamp ∧
    receiveMessage shadowTable 3 MessageType.NONE ≠ examplePassMsg ∧
    receiveMessage shadowTable 3 MessageType.BALL_POSSESSION ≠ examplePassMsg ∧
    receiveMessage shadowTable 3 MessageType.PASS_INTENTION ≠ examplePassMsg ∧
    receiveMessage shadowTable 3 MessageType.PASS_EXECUTION ≠ examplePassMsg ∧
    receiveMessage shadowTable 3 MessageType.POSITION_EXCHANGE ≠ examplePassMsg ∧
    receiveMessage shadowTable 3 MessageType.ATTACK_STRATEGY ≠ examplePassMsg ∧
    receiveMessage shadowTable 3 MessageType.DEFENSE_STRATEGY ≠ examplePassMsg ∧
    receiveMessage shadowTable 3 MessageType.EMERGENCY ≠ examplePassMsg ∧
    receiveMessage shadowTable 3 MessageType.PASS_INTENTION = examplePassMsg2 := by
  decide

/-- **C4** (amended): (1) a `receive` call returns either the NONE
sentinel or a slot addressed to the caller — a message addressed to R
is never returned to R′ ≠ R; (2) when some slot matches the caller and
filter (timestamps being the non-negative cycle stamps), `receive`
returns a matching stored slot with the greatest timestamp among all
matching slots, and returns the sentinel when none matches; (3) a
stored non-empty message is preserved by any sequence of sends whose
cycles lie within the message's 10-cycle TTL — it can only stop being
returned by being shadowed by a fresher matching message, not by being
overwritten. -/
theorem claim_C4 :
    (∀ (table : List Msg) (rid : Int) (filter : MessageType),
      receiveMessage table rid filter = defaultMsg ∨
      ((receiveMessage table rid filter).receiver_id = rid ∧
        receiveMessage table rid filter ∈ table)) ∧
    (∀ (table : List Msg) (rid : Int) (filter : MessageType),
      (∀ s ∈ table, (0 : Int) ≤ s.timestamp) →
      ((∃ s ∈ table, msgMatches rid filter s) →
        receiveMessage table rid filter ∈ table ∧
        msgMatches rid filter (receiveMessage table rid filter) ∧
        (∀ s ∈ table, msgMatches rid filter s →
          s.timestamp ≤ (receiveMessage table rid filter).timestamp)) ∧
      ((∀ s ∈ table, ¬ msgMatches rid filter s) →
        receiveMessage table rid filter = defaultMsg)) ∧
    (∀ (table : List Msg) (m : Msg) (ops : List SendOp),
      m ∈ table → m.type ≠ MessageType.NONE →
      (∀ op ∈ ops, op.cycle - 10 ≤ m.timestamp) →
      m ∈ applySends table ops) := by
  refine ⟨?_, ?_, fun table m ops hm ht httl =>
    applySends_preserves ops table m hm ht httl⟩
  · intro table rid filter
    rcases receiveAux_cases rid filter table (-1) defaultMsg with h | ⟨hmem, hm, -⟩
    · left; exact h
    · right; exact ⟨hm.1, hmem⟩
  · intro table rid filter hts
    constructor
    · intro hex
      obtain ⟨u, hu, hm⟩ := hex
      have hu0 : (-1 : Int) < u.timestamp := lt_of_lt_of_le (by norm_num) (hts u hu)
      obtain ⟨h1, h2, -⟩ := receiveAux_found rid filter table (-1) defaultMsg
        ⟨u, hu, hm, hu0⟩
      refine ⟨h1, h2, ?_⟩
      intro s hs hsm
      exact receiveAux_max rid filter table (-1) defaultMsg s hs hsm
        (lt_of_lt_of_le (by norm_num) (hts s hs))
    · intro hno
      exact receiveAux_unchanged rid filter table (-1) defaultMsg
        fun s hs hm => absurd hm (hno s hs)

set_option maxRecDepth 8000 in
/-- Witness for C4 (amended): the spec's example — after
`send(receiver 3, PASS_INTENTION, (50,50))` on the fresh table,
`receive(PASS_INTENTION)` as agent 3 returns exactly that message, and
the same call as agent 4 returns the NONE sentinel. -/
theorem claim_C4_witness :
    (∀ s ∈ exampleTable, (0 : Int) ≤ s.timestamp) ∧
    (∃ s ∈ exampleTable, msgMatches 3 MessageType.PASS_INTENTION s) ∧
    receiveMessage exampleTable 3 MessageType.PASS_INTENTION = examplePassMsg ∧
    (receiveMessage exampleTable 3 MessageType.PASS_INTENTION ∈ exampleTable ∧
      msgMatches 3 MessageType.PASS_INTENTION
        (receiveMessage exampleTable 3 MessageType.PASS_INTENTION) ∧
      (∀ s ∈ exampleTable, msgMatches 3 MessageType.PASS_INTENTION s →
        s.timestamp ≤
          (receiveMessage exampleTable 3 MessageType.PASS_INTENTION).timestamp)) ∧
    receiveMessage exampleTable 4 MessageType.PASS_INTENTION = defaultMsg := by
  refine ⟨by decide, by decide, by decide,
    (claim_C4.2.1 exampleTable 3 MessageType.PASS_INTENTION (by decide)).1 (by decide),
    (claim_C4.2.1 exampleTable 4 MessageType.PASS_INTENTION (by decide)).2 (by decide)⟩

/-- **C5**: the decision function is total — every outcome of the
`try` body, fault or task, yields a returned command — and any fault
raised inside the body is converted into a hold-current-position
command whose target pose and orientation are the agent's current
ones, with every other field keeping its default-constructed value. -/
theorem claim_C5 (body : Except Fault PlayerTask) (curPos : Rat × Rat)
    (curDir : Rat) :
    (∃ t : PlayerTask, player_plan body curPos curDir = t) ∧
    (∀ t : PlayerTask, body = Except.ok t → player_plan body curPos curDir = t) ∧
    (∀ f : Fault, body = Except.error f →
      (player_plan body curPos curDir).target_pos = curPos ∧
      (player_plan body curPos curDir).orientate = curDir ∧
      player_plan body curPos curDir =
        ⟨curPos, curDir, defaultPlayerTask.needKick, defaultPlayerTask.isPass,
          defaultPlayerTask.isChipKick, defaultPlayerTask.kickPower,
          defaultPlayerTask.needDribble⟩) := by
  refine ⟨⟨player_plan body curPos curDir, rfl⟩, ?_, ?_⟩
  · rintro t rfl
    rfl
  · rintro f rfl
    exact ⟨rfl, rfl, rfl⟩

/-- Witness for C5: a concrete `std::exception` fault raised at current
pose `(17, -4)` with orientation `3/2` is converted into the
hold-position command. -/
theorem claim_C5_witness :
    (Except.error (Fault.stdException "tactic fault") :
      Except Fault PlayerTask) = Except.error (Fault.stdException "tactic fault") ∧
    (player_plan (Except.error (Fault.stdException "tactic fault"))
      (17, -4) (3 / 2)).target_pos = (17, -4) ∧
    (player_plan (Except.error (Fault.stdException "tactic fault"))
      (17, -4) (3 / 2)).orientate = 3 / 2 := by
  have h := (claim_C5 (Except.error (Fault.stdException "tactic fault"))
    (17, -4) (3 / 2)).2.2 (Fault.stdException "tactic fault") rfl
  exact ⟨rfl, h.1, h.2.1⟩
